import Mathlib

/-!
Verification of the in-memory asset registry and edit-tracking core of a
browser-based game-mod asset editor.  The JavaScript sources are shallowly
embedded: the global `assetData` registry becomes an association list from
asset keys (folder number, file name) to records, each mutating function
becomes a pure function from registry to registry, and the browser codecs
(base64, raster, PCM) are modelled as pure data transformations.
-/

/-- Media kinds appearing in the source (`jpg`, `png`, `mp3`, `wav`);
`getMimeType` also admits arbitrary other strings, collapsed to `other`. -/
inductive AssetType where
  | jpg
  | png
  | mp3
  | wav
  | other
deriving DecidableEq, Repr

/-- Composite identifier of one asset: (folderNumber, fileName), the key
structure of the `assetData` registry in `fileHandling.js`. -/
abbrev AssetKey := String × String

/-- One entry of the `assetData` registry in `js/old/fileHandling.js`:
original and current base64 content, original and current media kind and
the two flags.  Base64 payloads are kept as strings, as in the source. -/
structure AssetRecord where
  originalBase64 : String
  currentBase64 : String
  type : AssetType
  originalType : AssetType
  isEdited : Bool
  isExcluded : Bool
deriving DecidableEq, Repr

/-- The registry: association list with one record per key. -/
abbrev Registry := List (AssetKey × AssetRecord)

/-- Record created for each manifest entry during `loadAllAssetsIntoMemory`:
current equals original, both flags cleared. -/
def loadRecord (base64 : String) (t : AssetType) : AssetRecord :=
  { originalBase64 := base64
    currentBase64 := base64
    type := t
    originalType := t
    isEdited := false
    isExcluded := false }

/-- Effect of `updateAssetInMemory` (js/old/fileHandling.js, lines 171-229)
on the targeted record: store the new base64 and type, apply the exclusion
override when one is supplied (`typeof isExcludedUpdate === 'boolean'`),
then recompute `isEdited` as
content-changed OR type-changed OR currently-excluded. -/
def updateRecord (r : AssetRecord) (newBase64 : String) (newType : AssetType)
    (isExcludedUpdate : Option Bool) : AssetRecord :=
  let r1 := { r with currentBase64 := newBase64, type := newType }
  let r2 :=
    match isExcludedUpdate with
    | some b => { r1 with isExcluded := b }
    | none => r1
  { r2 with
    isEdited :=
      (r2.currentBase64 != r2.originalBase64) ||
      (r2.type != r2.originalType) ||
      r2.isExcluded }

/-- `updateAssetInMemory(folderNumber, fileName, newBase64Data, newType,
isExcludedUpdate)`: if the key is present the record is rewritten through
`updateRecord`; an absent key only logs an error and leaves the registry
unchanged. -/
def updateAssetInMemory (reg : Registry) (k : AssetKey) (newBase64 : String)
    (newType : AssetType) (isExcludedUpdate : Option Bool) : Registry :=
  reg.map fun p =>
    if p.1 = k then (p.1, updateRecord p.2 newBase64 newType isExcludedUpdate) else p

/-- One queued call to `updateAssetInMemory`. -/
structure UpdateCall where
  key : AssetKey
  newBase64 : String
  newType : AssetType
  isExcludedUpdate : Option Bool

/-- Apply a sequence of `updateAssetInMemory` calls in order. -/
def applyUpdates (reg : Registry) (calls : List UpdateCall) : Registry :=
  calls.foldl
    (fun r c => updateAssetInMemory r c.key c.newBase64 c.newType c.isExcludedUpdate) reg

/-- The derived-flag formula of the spec: `isEdited` iff the current bytes
differ from the original bytes, or the current kind differs from the
original kind, or the record is excluded. -/
def editedFlagCorrect (r : AssetRecord) : Prop :=
  r.isEdited =
    ((r.currentBase64 != r.originalBase64) ||
     (r.type != r.originalType) ||
     r.isExcluded)

instance (r : AssetRecord) : Decidable (editedFlagCorrect r) := by
  unfold editedFlagCorrect; infer_instance

theorem editedFlagCorrect_load (base64 : String) (t : AssetType) :
    editedFlagCorrect (loadRecord base64 t) := by
  simp [editedFlagCorrect, loadRecord]

theorem editedFlagCorrect_update (r : AssetRecord) (b : String) (t : AssetType)
    (e : Option Bool) : editedFlagCorrect (updateRecord r b t e) := by
  cases e <;> simp [editedFlagCorrect, updateRecord]

theorem editedFlagCorrect_applyUpdates (reg : Registry) (calls : List UpdateCall)
    (h : ∀ p ∈ reg, editedFlagCorrect p.2) :
    ∀ p ∈ applyUpdates reg calls, editedFlagCorrect p.2 := by
  induction calls generalizing reg with
  | nil => simpa [applyUpdates] using h
  | cons c rest ih =>
      intro p hp
      refine ih _ ?_ p (by simpa [applyUpdates] using hp)
      intro q hq
      rcases List.mem_map.mp hq with ⟨q0, hq0, hq0eq⟩
      by_cases hk : q0.1 = c.key
      · subst hq0eq
        simp only [updateAssetInMemory, hk, if_pos]
        exact editedFlagCorrect_update _ _ _ _
      · subst hq0eq
        simp only [updateAssetInMemory, hk, if_neg, ite_false]
        exact h q0 hq0

/-- Claim C1: for every asset record in the registry, after any sequence of
`updateAssetInMemory` calls applied to a freshly loaded registry, the
record's `isEdited` flag equals
(currentBytes != originalBytes) OR (currentKind != original mediaKind) OR
(isExcluded == true). -/
theorem C1_update_isEdited_invariant (load : List (AssetKey × String × AssetType))
    (calls : List UpdateCall) :
    ∀ p ∈ applyUpdates (load.map fun l => (l.1, loadRecord l.2.1 l.2.2)) calls,
      editedFlagCorrect p.2 := by
  apply editedFlagCorrect_applyUpdates
  intro p hp
  rcases List.mem_map.mp hp with ⟨l, _, hl⟩
  subst hl
  exact editedFlagCorrect_load _ _

/-- Concrete run of C1: one loaded record, updated twice (an edit, then an
exclusion toggle); the invariant formula holds on the resulting record. -/
theorem C1_update_isEdited_invariant_witness :
    editedFlagCorrect
      (updateRecord (updateRecord (loadRecord "AAA" AssetType.jpg) "BBB" AssetType.png none)
        "BBB" AssetType.png (some true)) :=
  C1_update_isEdited_invariant
    [(("123", "a.jpg"), "AAA", AssetType.jpg)]
    [⟨("123", "a.jpg"), "BBB", AssetType.png, none⟩,
     ⟨("123", "a.jpg"), "BBB", AssetType.png, some true⟩]
    (("123", "a.jpg"),
      updateRecord (updateRecord (loadRecord "AAA" AssetType.jpg) "BBB" AssetType.png none)
        "BBB" AssetType.png (some true))
    (by decide)

/-- `reset`: restore a record to its original snapshot and clear both flags
(the reset loop at the start of `importChanges` in js/old/fileHandling.js). -/
def resetRecord (r : AssetRecord) : AssetRecord :=
  { r with
    currentBase64 := r.originalBase64
    type := r.originalType
    isEdited := false
    isExcluded := false }

/-- Reset every record of the registry to its original snapshot. -/
def resetAllRecords (reg : Registry) : Registry :=
  reg.map fun p => (p.1, resetRecord p.2)

/-- One entry of an imported session document: key, base64 payload, kind and
exclusion flag (`isExcluded` destructured with default `false`). -/
structure ImportEntry where
  key : AssetKey
  base64Data : String
  type : AssetType
  isExcluded : Bool

/-- Effect of one imported entry on a matching record, exactly as the import
loop of js/old/fileHandling.js writes it: current data and type from the
entry, `isEdited` set to `true` unconditionally, `isExcluded` from the
entry. -/
def applyEntryRecord (e : ImportEntry) (r : AssetRecord) : AssetRecord :=
  { r with
    currentBase64 := e.base64Data
    type := e.type
    isEdited := true
    isExcluded := e.isExcluded }

/-- Application of one imported entry to the registry: a present key is
rewritten through `applyEntryRecord`; an absent key matches no record, so the
registry is unchanged (the source logs a warning and continues). -/
def importApplyEntry (reg : Registry) (e : ImportEntry) : Registry :=
  reg.map fun p => if p.1 = e.key then (p.1, applyEntryRecord e p.2) else p

/-- `importChanges` (js/old/fileHandling.js, lines 237-355): reset every
record to its original state, then apply each imported entry in order. -/
def importChanges (reg : Registry) (doc : List ImportEntry) : Registry :=
  doc.foldl importApplyEntry (resetAllRecords reg)

/-- The import behavior claimed by the spec sentence: reset every record,
then for each entry call `update` (that is, `updateAssetInMemory`, which
recomputes `isEdited` by the derived-flag formula) with the entry's bytes,
kind and exclusion flag. -/
def importChangesPerClaim (reg : Registry) (doc : List ImportEntry) : Registry :=
  doc.foldl
    (fun r e => updateAssetInMemory r e.key e.base64Data e.type (some e.isExcluded))
    (resetAllRecords reg)

/-- Last entry of the document targeting a given key, if any. -/
def lastEntryFor (doc : List ImportEntry) (k : AssetKey) : Option ImportEntry :=
  doc.foldl (fun acc e => if e.key = k then some e else acc) none

theorem lastEntryFor_foldl_init (doc : List ImportEntry) (k : AssetKey)
    (init : Option ImportEntry) :
    doc.foldl (fun acc e => if e.key = k then some e else acc) init
      = match lastEntryFor doc k with
        | some x => some x
        | none => init := by
  induction doc generalizing init with
  | nil => simp [lastEntryFor]
  | cons e rest ih =>
      show rest.foldl _ (if e.key = k then some e else init) = _
      rw [ih]
      have h2 : lastEntryFor (e :: rest) k
          = match lastEntryFor rest k with
            | some x => some x
            | none => if e.key = k then some e else none := by
        show rest.foldl _ (if e.key = k then some e else none) = _
        rw [ih]
      rw [h2]
      cases lastEntryFor rest k <;> by_cases hk : e.key = k <;> simp [hk]

theorem applyEntryRecord_last (e y : ImportEntry) (r : AssetRecord) :
    applyEntryRecord y (applyEntryRecord e r) = applyEntryRecord y r := rfl

theorem importFoldl_eq_map_lastEntry (doc : List ImportEntry) (R : Registry) :
    doc.foldl importApplyEntry R
      = R.map fun p =>
          match lastEntryFor doc p.1 with
          | some e => (p.1, applyEntryRecord e p.2)
          | none => p := by
  induction doc generalizing R with
  | nil =>
      simp only [List.foldl_nil, lastEntryFor, List.foldl_nil]
      exact (List.map_id' R).symm
  | cons e rest ih =>
      show rest.foldl importApplyEntry (importApplyEntry R e) = _
      rw [ih, importApplyEntry, List.map_map]
      refine List.map_congr_left ?_
      intro x _
      have hlast : lastEntryFor (e :: rest) x.1
          = match lastEntryFor rest x.1 with
            | some y => some y
            | none => if e.key = x.1 then some e else none := by
        show rest.foldl _ (if e.key = x.1 then some e else none) = _
        exact lastEntryFor_foldl_init rest x.1 _
      show (fun p =>
            match lastEntryFor rest p.1 with
            | some y => (p.1, applyEntryRecord y p.2)
            | none => p)
          (if x.1 = e.key then (x.1, applyEntryRecord e x.2) else x) = _
      rw [hlast]
      by_cases hk : x.1 = e.key
      · rw [if_pos hk]
        cases hrest : lastEntryFor rest x.1 with
        | some y => simp [hrest, applyEntryRecord_last]
        | none => simp only [hrest]; simp [hk]
      · rw [if_neg hk]
        have hk2 : (e.key = x.1) = False := eq_false fun h => hk h.symm
        cases hrest : lastEntryFor rest x.1 with
        | some y => simp [hrest]
        | none => simp [hrest, hk2]

/-- Claim C3 counterexample: a session document entry whose payload, kind and
exclusion flag all equal the original leaves `isEdited = true` under the
code's `importChanges`, while reset-then-`update` (the claimed behavior,
which recomputes `isEdited` by the derived formula) leaves it `false`. -/
theorem C3_import_counterexample :
    (importChanges [(("1", "a.jpg"), loadRecord "AAA" AssetType.jpg)]
        [⟨("1", "a.jpg"), "AAA", AssetType.jpg, false⟩]).map (fun p => p.2.isEdited)
      = [true]
    ∧ (importChangesPerClaim [(("1", "a.jpg"), loadRecord "AAA" AssetType.jpg)]
        [⟨("1", "a.jpg"), "AAA", AssetType.jpg, false⟩]).map (fun p => p.2.isEdited)
      = [false] := by
  constructor <;> rfl

/-- Claim C3 (amended): session import first resets every existing record to
its original snapshot, then for each document entry whose key exists in the
registry writes the entry's bytes, kind and exclusion flag directly, setting
`isEdited` to `true` unconditionally (rather than recomputing it as `update`
would); entries whose key is absent from the registry affect nothing and
never abort the import.  Equivalently: every record ends at its reset state
when no entry targets it, and at the last targeting entry's data otherwise. -/
theorem C3_import_resets_then_applies (reg : Registry) (doc : List ImportEntry) :
    importChanges reg doc
      = (resetAllRecords reg).map fun p =>
          match lastEntryFor doc p.1 with
          | some e => (p.1, applyEntryRecord e p.2)
          | none => p :=
  importFoldl_eq_map_lastEntry doc (resetAllRecords reg)

/-- Modelled from the spec: the browser's `btoa` base64 alphabet (the codec
itself is a host built-in, not part of src/).  Maps a sextet to the ASCII
code of its base64 digit. -/
def sextetToChar (s : ℕ) : ℕ :=
  if s < 26 then 65 + s
  else if s < 52 then 97 + (s - 26)
  else if s < 62 then 48 + (s - 52)
  else if s = 62 then 43
  else 47

/-- Modelled from the spec: inverse base64 digit lookup used by the
browser's `atob` (host built-in, not part of src/). -/
def charToSextet (c : ℕ) : ℕ :=
  if 65 ≤ c ∧ c ≤ 90 then c - 65
  else if 97 ≤ c ∧ c ≤ 122 then c - 97 + 26
  else if 48 ≤ c ∧ c ≤ 57 then c - 48 + 52
  else if c = 43 then 62
  else 63

/-- Modelled from the spec: `bytesToText` — standard base64 encoding of a
byte list as performed by `blobToBase64` (FileReader data URL, a host
built-in, not part of src/); 61 is the ASCII code of the padding sign. -/
def btoaBytes : List ℕ → List ℕ
  | [] => []
  | [b0] => [sextetToChar (b0 / 4), sextetToChar (b0 % 4 * 16), 61, 61]
  | [b0, b1] =>
      [sextetToChar (b0 / 4), sextetToChar (b0 % 4 * 16 + b1 / 16),
       sextetToChar (b1 % 16 * 4), 61]
  | b0 :: b1 :: b2 :: rest =>
      sextetToChar (b0 / 4) :: sextetToChar (b0 % 4 * 16 + b1 / 16) ::
      sextetToChar (b1 % 16 * 4 + b2 / 64) :: sextetToChar (b2 % 64) ::
      btoaBytes rest

/-- Modelled from the spec: `atob` — standard base64 decoding of a padded
quad stream (host built-in, not part of src/). -/
def atobBytes : List ℕ → List ℕ
  | c0 :: c1 :: c2 :: c3 :: rest =>
      if c2 = 61 then
        [charToSextet c0 * 4 + charToSextet c1 / 16]
      else if c3 = 61 then
        [charToSextet c0 * 4 + charToSextet c1 / 16,
         charToSextet c1 % 16 * 16 + charToSextet c2 / 4]
      else
        (charToSextet c0 * 4 + charToSextet c1 / 16) ::
        (charToSextet c1 % 16 * 16 + charToSextet c2 / 4) ::
        (charToSextet c2 % 4 * 64 + charToSextet c3) ::
        atobBytes rest
  | _ => []

/-- Character class of the cleanup regex in `base64ToBlob`
(js/old/fileHandling.js): A-Z, a-z, 0-9, plus, slash and the padding sign. -/
def isBase64Char (c : ℕ) : Bool :=
  (65 ≤ c && c ≤ 90) || (97 ≤ c && c ≤ 122) || (48 ≤ c && c ≤ 57) ||
  c = 43 || c = 47 || c = 61

/-- Padding fix-up of `base64ToBlob` (js/old/fileHandling.js, lines 62-114):
append padding signs when the length is not a multiple of four. -/
def padBase64 (cs : List ℕ) : List ℕ :=
  if cs.length % 4 = 0 then cs else cs ++ List.replicate (4 - cs.length % 4) 61

/-- `textToBytes` as implemented by `base64ToBlob`
(js/old/fileHandling.js): pad, strip characters outside the base64
alphabet, then decode with `atob`. -/
def base64ToBytes (cs : List ℕ) : List ℕ :=
  atobBytes ((padBase64 cs).filter isBase64Char)

theorem charToSextet_sextetToChar : ∀ s, s < 64 → charToSextet (sextetToChar s) = s := by
  decide

theorem sextetToChar_ne_pad : ∀ s, s < 64 → ¬ sextetToChar s = 61 := by
  decide

theorem isBase64Char_sextetToChar (s : ℕ) : isBase64Char (sextetToChar s) = true := by
  unfold sextetToChar isBase64Char
  split
  · simp; omega
  · split
    · simp; omega
    · split
      · simp; omega
      · split <;> simp

theorem btoaBytes_length_mod4 (b : List ℕ) : (btoaBytes b).length % 4 = 0 := by
  induction b using btoaBytes.induct with
  | case1 => simp [btoaBytes]
  | case2 b0 => simp [btoaBytes]
  | case3 b0 b1 => simp [btoaBytes]
  | case4 b0 b1 b2 rest ih => simp only [btoaBytes, List.length_cons]; omega

theorem btoaBytes_chars (b : List ℕ) : ∀ c ∈ btoaBytes b, isBase64Char c = true := by
  induction b using btoaBytes.induct with
  | case1 => intro c hc; cases hc
  | case2 b0 =>
      intro c hc
      simp only [btoaBytes, List.mem_cons, List.not_mem_nil, or_false] at hc
      rcases hc with h | h | h | h <;> subst h <;>
        first | exact isBase64Char_sextetToChar _ | rfl
  | case3 b0 b1 =>
      intro c hc
      simp only [btoaBytes, List.mem_cons, List.not_mem_nil, or_false] at hc
      rcases hc with h | h | h | h <;> subst h <;>
        first | exact isBase64Char_sextetToChar _ | rfl
  | case4 b0 b1 b2 rest ih =>
      intro c hc
      simp only [btoaBytes, List.mem_cons] at hc
      rcases hc with h | h | h | h | h
      · subst h; exact isBase64Char_sextetToChar _
      · subst h; exact isBase64Char_sextetToChar _
      · subst h; exact isBase64Char_sextetToChar _
      · subst h; exact isBase64Char_sextetToChar _
      · exact ih c h

theorem atobBytes_btoaBytes (b : List ℕ) (h : ∀ x ∈ b, x < 256) :
    atobBytes (btoaBytes b) = b := by
  induction b using btoaBytes.induct with
  | case1 => rfl
  | case2 b0 =>
      have hb0 : b0 < 256 := h b0 (by simp)
      simp only [btoaBytes, atobBytes]
      rw [if_pos trivial,
          charToSextet_sextetToChar (b0 / 4) (by omega),
          charToSextet_sextetToChar (b0 % 4 * 16) (by omega)]
      simp only [List.cons.injEq, and_true]
      omega
  | case3 b0 b1 =>
      have hb0 : b0 < 256 := h b0 (by simp)
      have hb1 : b1 < 256 := h b1 (by simp)
      simp only [btoaBytes, atobBytes]
      rw [if_pos trivial,
          charToSextet_sextetToChar (b0 / 4) (by omega),
          charToSextet_sextetToChar (b0 % 4 * 16 + b1 / 16) (by omega),
          charToSextet_sextetToChar (b1 % 16 * 4) (by omega)]
      rw [if_neg (sextetToChar_ne_pad (b1 % 16 * 4) (by omega))]
      simp only [List.cons.injEq, and_true]
      omega
  | case4 b0 b1 b2 rest ih =>
      have hb0 : b0 < 256 := h b0 (by simp)
      have hb1 : b1 < 256 := h b1 (by simp)
      have hb2 : b2 < 256 := h b2 (by simp)
      have hrest : ∀ x ∈ rest, x < 256 := fun x hx => h x (by simp [hx])
      simp only [btoaBytes, atobBytes]
      rw [if_neg (sextetToChar_ne_pad (b1 % 16 * 4 + b2 / 64) (by omega)),
          if_neg (sextetToChar_ne_pad (b2 % 64) (by omega)),
          charToSextet_sextetToChar (b0 / 4) (by omega),
          charToSextet_sextetToChar (b0 % 4 * 16 + b1 / 16) (by omega),
          charToSextet_sextetToChar (b1 % 16 * 4 + b2 / 64) (by omega),
          charToSextet_sextetToChar (b2 % 64) (by omega), ih hrest]
      simp only [List.cons.injEq, and_true]
      refine ⟨by omega, by omega, by omega⟩

/-- Claim C9: for every byte buffer, encoding to base64 text with
`blobToBase64` and decoding back with `base64ToBlob` (including its padding
fix-up and its non-base64-character strip) yields exactly the original
bytes. -/
theorem C9_base64_round_trip (b : List ℕ) (h : ∀ x ∈ b, x < 256) :
    base64ToBytes (btoaBytes b) = b := by
  unfold base64ToBytes padBase64
  rw [if_pos (btoaBytes_length_mod4 b),
      List.filter_eq_self.mpr (btoaBytes_chars b),
      atobBytes_btoaBytes b h]

/-- Concrete run of C9 on the bytes [0, 77, 255, 9]: the round trip through
padding, strip and decode returns them exactly. -/
theorem C9_base64_round_trip_witness :
    base64ToBytes (btoaBytes [0, 77, 255, 9]) = [0, 77, 255, 9] :=
  C9_base64_round_trip [0, 77, 255, 9] (by decide)

/-- A `ModAsset` as consumed by `exportMod` (exportImport.js): flat record
with content, edited and excluded flags. -/
structure ModAsset where
  folderNumber : String
  fileName : String
  base64Data : String
  isEdited : Bool
  isExcluded : Bool
deriving DecidableEq, Repr

/-- `exportMod` (exportImport.js, lines 18-55) filters the asset list with
`asset.isEdited && !asset.isExcluded` and adds each surviving asset to the
archive; entries are modelled as (key, content) pairs, the in-archive path
being `exportModPath` applied to the key. -/
def exportModEntries (assets : List ModAsset) : List (AssetKey × String) :=
  (assets.filter fun a => a.isEdited && !a.isExcluded).map
    fun a => ((a.folderNumber, a.fileName), a.base64Data)

/-- Path used by `exportMod`:
`basePath + asset.folderNumber + "/1/" + asset.fileName`. -/
def exportModPath (basePath : String) (k : AssetKey) : String :=
  basePath ++ k.1 ++ "/1/" ++ k.2

/-- The `editedAssets[folder][file]` side entry consulted by
`downloadAllAssetsAsZip` (js/export.js copy inside exportImport.js). -/
structure EditedEntry where
  base64Data : String
  type : AssetType
  isExcluded : Bool
deriving DecidableEq, Repr

/-- One asset as seen by `downloadAllAssetsAsZip`: the `assetData` record
plus the optional `editedAssets` entry for the same key. -/
structure ExportSource where
  key : AssetKey
  record : AssetRecord
  edited : Option EditedEntry
deriving DecidableEq, Repr

/-- Content the export loop would write for an asset: the edited payload
when an `editedAssets` entry exists, otherwise the original base64. -/
def effectiveContent (a : ExportSource) : String :=
  match a.edited with
  | some e => e.base64Data
  | none => a.record.originalBase64

/-- The redundant second exclusion check of the export loop: the
`editedAssets` entry's own `isExcluded` flag (false when no entry exists). -/
def effectiveEditedExcluded (a : ExportSource) : Bool :=
  match a.edited with
  | some e => e.isExcluded
  | none => false

/-- Per-asset decision of `downloadAllAssetsAsZip` (exportImport.js, lines
237-297): skip when `assetData` marks the asset excluded; otherwise prefer
the `editedAssets` entry, skipping again when that entry is itself excluded;
skip empty content; otherwise emit (key, content). -/
def chooseZipEntry (a : ExportSource) : Option (AssetKey × String) :=
  if a.record.isExcluded then none
  else
    match a.edited with
    | some e =>
        if e.isExcluded then none
        else if e.base64Data = "" then none
        else some (a.key, e.base64Data)
    | none =>
        if a.record.originalBase64 = "" then none
        else some (a.key, a.record.originalBase64)

/-- The archive content produced by `downloadAllAssetsAsZip`: the per-asset
decisions over the whole registry walk. -/
def downloadAllAssetsZipEntries (assets : List ExportSource) : List (AssetKey × String) :=
  assets.filterMap chooseZipEntry

/-- In-archive path of `downloadAllAssetsAsZip`:
`rootFolder + "files/assets/" + folderNumber + "/1/" + fileName`. -/
def zipAssetPath (rootFolder : String) (k : AssetKey) : String :=
  rootFolder ++ "files/assets/" ++ k.1 ++ "/1/" ++ k.2

theorem chooseZipEntry_eq_some (a : ExportSource) (kc : AssetKey × String) :
    chooseZipEntry a = some kc ↔
      (a.record.isExcluded = false ∧ effectiveEditedExcluded a = false ∧
       ¬ effectiveContent a = "" ∧ kc = (a.key, effectiveContent a)) := by
  unfold chooseZipEntry effectiveContent effectiveEditedExcluded
  by_cases hx : a.record.isExcluded
  · simp [hx]
  · cases he : a.edited with
    | some e =>
        by_cases hee : e.isExcluded
        · simp [hx, hee]
        · by_cases hc : e.base64Data = ""
          · simp [hx, hee, hc]
          · simp [hx, hee, hc, eq_comm]
    | none =>
        by_cases hc : a.record.originalBase64 = ""
        · simp [hx, hc]
        · simp [hx, hc, eq_comm]

theorem chooseZipEntry_key (a : ExportSource) (kc : AssetKey × String)
    (h : chooseZipEntry a = some kc) : kc.1 = a.key := by
  rcases (chooseZipEntry_eq_some a kc).mp h with ⟨_, _, _, hkc⟩
  rw [hkc]

/-- Claim C2 counterexample: a single asset with `isEdited = false` and
`isExcluded = false` is omitted by `exportMod`, although the claim requires
every non-excluded record (whether edited or untouched) to be placed in the
archive. -/
theorem C2_export_counterexample :
    ([⟨"5", "f.png", "QUJD", false, false⟩] : List ModAsset).map ModAsset.isExcluded
        = [false]
    ∧ exportModEntries [⟨"5", "f.png", "QUJD", false, false⟩] = [] := by
  constructor <;> rfl

/-- Claim C2 (amended): the full-archive exporter `downloadAllAssetsAsZip`
walks every asset record and omits exactly those marked excluded (in
`assetData` or in the consulted `editedAssets` entry) together with those
whose effective content is empty: every other record — edited or untouched —
is placed in the archive, keyed by (collectionId, fileName) and written at
the deterministic path `zipAssetPath`, with its edited content when an
edited entry exists and its original content otherwise; no excluded record
appears.  The edited-only exporter `exportMod` additionally omits every
record with `isEdited = false`: it places exactly the assets with
`isEdited && !isExcluded`. -/
theorem C2_export_amended (assets : List ExportSource) (massets : List ModAsset)
    (root : String) (hnodup : (assets.map ExportSource.key).Nodup) :
    (∀ kc, kc ∈ downloadAllAssetsZipEntries assets ↔
        ∃ a ∈ assets, a.record.isExcluded = false ∧ effectiveEditedExcluded a = false ∧
          ¬ effectiveContent a = "" ∧ kc = (a.key, effectiveContent a))
    ∧ (∀ a ∈ assets, a.record.isExcluded = false → effectiveEditedExcluded a = false →
        ¬ effectiveContent a = "" →
          (zipAssetPath root a.key, effectiveContent a) ∈
            (downloadAllAssetsZipEntries assets).map fun kc => (zipAssetPath root kc.1, kc.2))
    ∧ (∀ a ∈ assets, (a.record.isExcluded = true ∨ effectiveEditedExcluded a = true) →
        ∀ c, (a.key, c) ∉ downloadAllAssetsZipEntries assets)
    ∧ (∀ kc, kc ∈ exportModEntries massets ↔
        ∃ a ∈ massets, a.isEdited = true ∧ a.isExcluded = false ∧
          kc = ((a.folderNumber, a.fileName), a.base64Data)) := by
  refine ⟨?_, ?_, ?_, ?_⟩
  · intro kc
    rw [downloadAllAssetsZipEntries, List.mem_filterMap]
    constructor
    · rintro ⟨a, ha, hch⟩
      exact ⟨a, ha, (chooseZipEntry_eq_some a kc).mp hch⟩
    · rintro ⟨a, ha, hcond⟩
      exact ⟨a, ha, (chooseZipEntry_eq_some a kc).mpr hcond⟩
  · intro a ha h1 h2 h3
    refine List.mem_map.mpr ⟨(a.key, effectiveContent a), ?_, rfl⟩
    exact List.mem_filterMap.mpr
      ⟨a, ha, (chooseZipEntry_eq_some a _).mpr ⟨h1, h2, h3, rfl⟩⟩
  · intro a ha hexcl c hmem
    rcases List.mem_filterMap.mp hmem with ⟨a2, ha2, hch⟩
    rcases (chooseZipEntry_eq_some a2 _).mp hch with ⟨h1, h2, _, hkc⟩
    have hkeys : a2.key = a.key := (congrArg Prod.fst hkc).symm
    have : a2 = a :=
      List.inj_on_of_nodup_map hnodup ha2 ha hkeys
    subst this
    rcases hexcl with h | h
    · rw [h1] at h; cases h
    · rw [h2] at h; cases h
  · intro kc
    rw [exportModEntries, List.mem_map]
    constructor
    · rintro ⟨a, ha, hkc⟩
      have hfa := List.mem_filter.mp ha
      refine ⟨a, hfa.1, ?_, ?_, hkc.symm⟩
      · have := hfa.2
        simp only [Bool.and_eq_true] at this
        exact this.1
      · have := hfa.2
        simp only [Bool.and_eq_true, Bool.not_eq_true'] at this
        exact this.2
    · rintro ⟨a, ha, hed, hex, hkc⟩
      refine ⟨a, List.mem_filter.mpr ⟨ha, ?_⟩, hkc.symm⟩
      simp [hed, hex]

/-- Concrete run of C2 (amended): an untouched non-excluded record and an
edited record both land in the full archive, keyed by their
(folder, fileName). -/
theorem C2_export_amended_witness :
    ((("7", "a.png"), "ORIG") ∈ downloadAllAssetsZipEntries
        [⟨("7", "a.png"), loadRecord "ORIG" AssetType.png, none⟩,
         ⟨("8", "b.jpg"), loadRecord "OLD" AssetType.jpg, some ⟨"NEW", AssetType.jpg, false⟩⟩])
    ∧ ((("8", "b.jpg"), "NEW") ∈ downloadAllAssetsZipEntries
        [⟨("7", "a.png"), loadRecord "ORIG" AssetType.png, none⟩,
         ⟨("8", "b.jpg"), loadRecord "OLD" AssetType.jpg, some ⟨"NEW", AssetType.jpg, false⟩⟩]) := by
  have h := C2_export_amended
    [⟨("7", "a.png"), loadRecord "ORIG" AssetType.png, none⟩,
     ⟨("8", "b.jpg"), loadRecord "OLD" AssetType.jpg, some ⟨"NEW", AssetType.jpg, false⟩⟩]
    [] "" (by decide)
  constructor
  · exact (h.1 (("7", "a.png"), "ORIG")).mpr
      ⟨⟨("7", "a.png"), loadRecord "ORIG" AssetType.png, none⟩,
        by simp, by decide, by decide, by decide, by decide⟩
  · exact (h.1 (("8", "b.jpg"), "NEW")).mpr
      ⟨⟨("8", "b.jpg"), loadRecord "OLD" AssetType.jpg, some ⟨"NEW", AssetType.jpg, false⟩⟩,
        by simp, by decide, by decide, by decide, by decide⟩

/-- Outcome of one card click in the selection module of part_008
(js/selection.js with exclusion support): `ok` for a completed toggle,
`conflictingState` for the alert-and-return rejection paths, `refError`
for the paths that read the out-of-scope `folderNumber`/`fileName`
variables of `handleCardClick` (a ReferenceError in a strict-mode module;
any mutation already performed before that read persists). -/
inductive ClickOutcome where
  | ok
  | conflictingState
  | refError
deriving DecidableEq, Repr

/-- The two key sets of part_008: `selectedAssets` (edit selection) and
`excludedAssets` (export exclusion). -/
structure TrackerState where
  selected : Finset String
  excluded : Finset String

/-- Regular-click branch of `handleToggleSelection` (part_008, lines
110-159): a selected key is deselected; an unselected key already in the
exclusion set is rejected with the "currently excluded from export" alert,
leaving both sets unchanged; otherwise the guard evaluates the unbound
`folderNumber` variable and crashes before any mutation. -/
def toggleSelectionClick (s : TrackerState) (k : String) : TrackerState × ClickOutcome :=
  if k ∈ s.selected then ({ s with selected := s.selected.erase k }, .ok)
  else if k ∈ s.excluded then (s, .conflictingState)
  else (s, .refError)

/-- Regular-click branch of `handleToggleExclusion` (part_008, lines
168-253): an excluded key is removed from the exclusion set (the subsequent
`assetData` block then reads the unbound `folderNumber` and crashes); a key
in the edit selection is rejected with the "currently selected for editing"
alert, leaving both sets unchanged; otherwise the key is added to the
exclusion set before the same crash. -/
def toggleExclusionClick (s : TrackerState) (k : String) : TrackerState × ClickOutcome :=
  if k ∈ s.excluded then ({ s with excluded := s.excluded.erase k }, .refError)
  else if k ∈ s.selected then (s, .conflictingState)
  else ({ s with excluded := insert k s.excluded }, .refError)

/-- Shift-click range branch of `handleToggleSelection` (and the
select-mode body of `selectAllDisplayedAssets`): every visible
type-matching key in range is added to the edit selection unless it is in
the exclusion set or its registry entry carries `isExcluded` (the
`exclFlag` view of `editedAssets`). -/
def rangeSelectTargets (exclFlag : String → Bool) (s : TrackerState)
    (keys : List String) : TrackerState :=
  { s with
    selected :=
      keys.foldl (fun sel k => if k ∈ s.excluded ∨ exclFlag k then sel else insert k sel)
        s.selected }

/-- Shift-click range branch of `handleToggleExclusion` (and the
exclude-mode body of `selectAllDisplayedAssets`): every visible
type-matching key in range is added to the exclusion set unless it is
currently in the edit selection. -/
def rangeExcludeTargets (s : TrackerState) (keys : List String) : TrackerState :=
  { s with
    excluded :=
      keys.foldl (fun exc k => if k ∈ s.selected then exc else insert k exc) s.excluded }

/-- States of the part_008 tracker reachable from the empty tracker through
its click handlers, range handlers and the two clear operations
(`clearAllSelections`, `clearAllExclusions`). -/
inductive TrackerReachable : TrackerState → Prop where
  | init : TrackerReachable ⟨∅, ∅⟩
  | selClick (s : TrackerState) (k : String) :
      TrackerReachable s → TrackerReachable (toggleSelectionClick s k).1
  | exclClick (s : TrackerState) (k : String) :
      TrackerReachable s → TrackerReachable (toggleExclusionClick s k).1
  | selRange (s : TrackerState) (f : String → Bool) (keys : List String) :
      TrackerReachable s → TrackerReachable (rangeSelectTargets f s keys)
  | exclRange (s : TrackerState) (keys : List String) :
      TrackerReachable s → TrackerReachable (rangeExcludeTargets s keys)
  | clearSel (s : TrackerState) :
      TrackerReachable s → TrackerReachable { s with selected := ∅ }
  | clearExcl (s : TrackerState) :
      TrackerReachable s → TrackerReachable { s with excluded := ∅ }

/-- Mutual exclusion of the two sets: no key is simultaneously selected for
edit and selected for exclusion. -/
def trackerConsistent (s : TrackerState) : Prop :=
  ∀ k, ¬ (k ∈ s.selected ∧ k ∈ s.excluded)

theorem rangeSelect_foldl_not_excluded (exc : Finset String) (f : String → Bool)
    (keys : List String) (sel : Finset String)
    (h : ∀ x ∈ sel, x ∉ exc) :
    ∀ x ∈ keys.foldl (fun sel k => if k ∈ exc ∨ f k then sel else insert k sel) sel,
      x ∉ exc := by
  induction keys generalizing sel with
  | nil => simpa using h
  | cons k rest ih =>
      intro x hx
      refine ih _ ?_ x hx
      intro y hy
      have hy2 : y ∈ (if k ∈ exc ∨ f k then sel else insert k sel) := hy
      by_cases hk : k ∈ exc ∨ f k
      · rw [if_pos hk] at hy2
        exact h y hy2
      · rw [if_neg hk] at hy2
        rcases Finset.mem_insert.mp hy2 with h1 | h1
        · subst h1
          exact fun hc => hk (Or.inl hc)
        · exact h y h1

theorem rangeExclude_foldl_not_selected (sel : Finset String)
    (keys : List String) (exc : Finset String)
    (h : ∀ x ∈ exc, x ∉ sel) :
    ∀ x ∈ keys.foldl (fun exc k => if k ∈ sel then exc else insert k exc) exc,
      x ∉ sel := by
  induction keys generalizing exc with
  | nil => simpa using h
  | cons k rest ih =>
      intro x hx
      refine ih _ ?_ x hx
      intro y hy
      have hy2 : y ∈ (if k ∈ sel then exc else insert k exc) := hy
      by_cases hk : k ∈ sel
      · rw [if_pos hk] at hy2
        exact h y hy2
      · rw [if_neg hk] at hy2
        rcases Finset.mem_insert.mp hy2 with h1 | h1
        · subst h1; exact hk
        · exact h y h1

theorem trackerConsistent_reachable (s : TrackerState) (h : TrackerReachable s) :
    trackerConsistent s := by
  induction h with
  | init => intro k hk; exact absurd hk.1 (Finset.not_mem_empty k)
  | selClick s k _ ih =>
      unfold toggleSelectionClick
      by_cases h1 : k ∈ s.selected
      · rw [if_pos h1]
        intro x hx
        exact ih x ⟨Finset.mem_of_mem_erase hx.1, hx.2⟩
      · rw [if_neg h1]
        by_cases h2 : k ∈ s.excluded
        · rw [if_pos h2]; exact ih
        · rw [if_neg h2]; exact ih
  | exclClick s k _ ih =>
      unfold toggleExclusionClick
      by_cases h1 : k ∈ s.excluded
      · rw [if_pos h1]
        intro x hx
        exact ih x ⟨hx.1, Finset.mem_of_mem_erase hx.2⟩
      · rw [if_neg h1]
        by_cases h2 : k ∈ s.selected
        · rw [if_pos h2]; exact ih
        · rw [if_neg h2]
          intro x hx
          rcases Finset.mem_insert.mp hx.2 with h3 | h3
          · exact h2 (h3 ▸ hx.1)
          · exact ih x ⟨hx.1, h3⟩
  | selRange s f keys _ ih =>
      intro x hx
      exact rangeSelect_foldl_not_excluded s.excluded f keys s.selected
        (fun y hy hc => ih y ⟨hy, hc⟩) x hx.1 hx.2
  | exclRange s keys _ ih =>
      intro x hx
      exact rangeExclude_foldl_not_selected s.selected keys s.excluded
        (fun y hy hc => ih y ⟨hc, hy⟩) x hx.2 hx.1
  | clearSel s _ _ =>
      intro x hx
      exact absurd hx.1 (Finset.not_mem_empty x)
  | clearExcl s _ _ =>
      intro x hx
      exact absurd hx.2 (Finset.not_mem_empty x)

/-- Claim C4: in every reachable tracker state no key is simultaneously in
the edit selection set and in the exclusion set; clicking to select a key
that is currently excluded is rejected with the conflicting-state alert (not
a crash), leaving both sets unchanged; and symmetrically, clicking to
exclude a key currently selected for edit is rejected the same way. -/
theorem C4_selection_exclusion_mutex :
    (∀ s, TrackerReachable s → trackerConsistent s)
    ∧ (∀ s k, TrackerReachable s → k ∈ s.excluded →
        toggleSelectionClick s k = (s, ClickOutcome.conflictingState))
    ∧ (∀ s k, TrackerReachable s → k ∈ s.selected →
        toggleExclusionClick s k = (s, ClickOutcome.conflictingState)) := by
  refine ⟨trackerConsistent_reachable, ?_, ?_⟩
  · intro s k hs hk
    have hns : k ∉ s.selected := fun hc => trackerConsistent_reachable s hs k ⟨hc, hk⟩
    unfold toggleSelectionClick
    rw [if_neg hns, if_pos hk]
  · intro s k hs hk
    have hne : k ∉ s.excluded := fun hc => trackerConsistent_reachable s hs k ⟨hk, hc⟩
    unfold toggleExclusionClick
    rw [if_neg hne, if_pos hk]

/-- Concrete run of C4: exclude `f1` from the empty tracker, then attempt to
select it for edit; the attempt is rejected with the conflicting-state
alert and the tracker is unchanged. -/
theorem C4_selection_exclusion_mutex_witness :
    toggleSelectionClick (toggleExclusionClick ⟨∅, ∅⟩ "f1").1 "f1"
      = ((toggleExclusionClick ⟨∅, ∅⟩ "f1").1, ClickOutcome.conflictingState) :=
  C4_selection_exclusion_mutex.2.1 _ "f1"
    (TrackerReachable.exclClick ⟨∅, ∅⟩ "f1" TrackerReachable.init)
    (by simp [toggleExclusionClick])

/-- Kind families used by the selection tracker (`selection.js`): jpg and
png group as `image`, mp3 stands alone. -/
inductive GroupType where
  | image
  | mp3
deriving DecidableEq, Repr

/-- Outcome of a toggle in the single-set tracker of `selection.js`. -/
inductive ToggleOutcome where
  | ok
  | kindMismatch
deriving DecidableEq, Repr

/-- State of `selection.js`: the `selectedAssets` set and the
`allowedSelectionType` scalar, `null` when nothing is selected. -/
structure SelTracker where
  selected : Finset String
  allowedType : Option GroupType

/-- Regular-click path of `handleCardClick` (selection.js, lines 27-124):
on an empty set the clicked asset's kind family becomes the allowed type
and the asset is selected; on a non-empty set a differing family is
rejected with the kind-mismatch alert and nothing changes; otherwise
membership is flipped, and `allowedSelectionType` is reset to `null` when
the set becomes empty. -/
def handleCardClick (s : SelTracker) (k : String) (g : GroupType) :
    SelTracker × ToggleOutcome :=
  if s.selected = ∅ then
    ({ selected := {k}, allowedType := some g }, .ok)
  else if ¬ s.allowedType = some g then (s, .kindMismatch)
  else
    let sel2 := if k ∈ s.selected then s.selected.erase k else insert k s.selected
    ({ selected := sel2, allowedType := if sel2 = ∅ then none else s.allowedType }, .ok)

/-- Claim C6: toggling on an empty selection sets `allowedKind` to the
toggled asset's kind family and selects it; toggling an asset of a
differing kind family on any non-empty selection fails with the
kind-mismatch alert and leaves the selection set, the allowed kind, and
every previously selected asset's membership unchanged. -/
theorem C6_toggle_kind_guard :
    (∀ s k g, s.selected = ∅ →
        handleCardClick s k g = ({ selected := {k}, allowedType := some g }, .ok))
    ∧ (∀ s k g g2, ¬ s.selected = ∅ → s.allowedType = some g2 → ¬ g2 = g →
        handleCardClick s k g = (s, .kindMismatch)) := by
  constructor
  · intro s k g h
    unfold handleCardClick
    rw [if_pos h]
  · intro s k g g2 hne hat hg
    unfold handleCardClick
    rw [if_neg hne, if_pos]
    rw [hat]
    exact fun hc => hg (Option.some.inj hc)

/-- Concrete run of C6 (the spec's kind-guard scenario): `keyA` of the
raster family is selected on an empty tracker; a subsequent toggle of
`keyB` of the audio family fails with the mismatch alert and leaves `keyA`
selected. -/
theorem C6_toggle_kind_guard_witness :
    handleCardClick ⟨∅, none⟩ "keyA" GroupType.image
      = (⟨{"keyA"}, some GroupType.image⟩, ToggleOutcome.ok)
    ∧ handleCardClick ⟨{"keyA"}, some GroupType.image⟩ "keyB" GroupType.mp3
      = (⟨{"keyA"}, some GroupType.image⟩, ToggleOutcome.kindMismatch) :=
  ⟨C6_toggle_kind_guard.1 ⟨∅, none⟩ "keyA" GroupType.image rfl,
   C6_toggle_kind_guard.2 ⟨{"keyA"}, some GroupType.image⟩ "keyB"
     GroupType.mp3 GroupType.image (by decide) rfl (by decide)⟩

/-- One RGBA pixel of a decoded `ImageData` buffer. -/
structure Pixel where
  r : ℕ
  g : ℕ
  b : ℕ
  a : ℕ
deriving DecidableEq, Repr

/-- `Math.round`: round half towards positive infinity. -/
def jsRound (q : ℚ) : ℤ := ⌊q + 1 / 2⌋

/-- One channel of the blend in `applyColorChange` (exportImport.js, lines
716-789): `Math.round(in * (1 - strength) + target * strength)`. -/
def blendChannel (strength : ℚ) (target c : ℕ) : ℕ :=
  (jsRound (c * (1 - strength) + target * strength)).toNat

/-- The per-pixel loop of `applyColorChange`: each color channel is blended
towards the target color independently; the alpha channel is untouched. -/
def applyColorChangePixels (img : List Pixel) (tr tg tb : ℕ) (strength : ℚ) :
    List Pixel :=
  img.map fun p =>
    { r := blendChannel strength tr p.r
      g := blendChannel strength tg p.g
      b := blendChannel strength tb p.b
      a := p.a }

theorem jsRound_natCast (n : ℕ) : jsRound n = n := by
  unfold jsRound
  rw [Int.floor_eq_iff]
  constructor
  · push_cast; linarith
  · push_cast; linarith

theorem blendChannel_zero (target c : ℕ) : blendChannel 0 target c = c := by
  unfold blendChannel
  norm_num
  rw [jsRound_natCast]
  exact Int.toNat_natCast c

theorem blendChannel_one (target c : ℕ) : blendChannel 1 target c = target := by
  unfold blendChannel
  norm_num
  rw [jsRound_natCast]
  exact Int.toNat_natCast target

theorem blendChannel_le (strength : ℚ) (target c : ℕ) (h0 : 0 ≤ strength)
    (h1 : strength ≤ 1) (ht : target ≤ 255) (hc : c ≤ 255) :
    blendChannel strength target c ≤ 255 := by
  unfold blendChannel jsRound
  have hx : (c : ℚ) * (1 - strength) + (target : ℚ) * strength ≤ 255 := by
    have hc2 : (c : ℚ) ≤ 255 := by exact_mod_cast hc
    have ht2 : (target : ℚ) ≤ 255 := by exact_mod_cast ht
    nlinarith
  have hfl : ⌊(c : ℚ) * (1 - strength) + (target : ℚ) * strength + 1 / 2⌋ < 256 := by
    refine Int.floor_lt.mpr ?_
    push_cast
    linarith
  omega

theorem getD_map_lt {α β : Type} (f : α → β) :
    ∀ (l : List α) (i : ℕ), i < l.length → ∀ (d : α) (d2 : β),
      (l.map f).getD i d2 = f (l.getD i d)
  | a :: l, 0, _, d, d2 => rfl
  | a :: l, i + 1, h, d, d2 => getD_map_lt f l i (by simpa using h) d d2

/-- Claim C8: `applyColorChange` blends every pixel's color channels
independently towards the target by
`out = round(in * (1 - strength) + target * strength)`; with inputs in
range no output channel exceeds 255 (no clamping triggered); strength 0
returns the image unchanged, and strength 1 makes every pixel's color
channels equal the target color. -/
theorem C8_blendColor_spec (img : List Pixel) (tr tg tb : ℕ) (strength : ℚ)
    (h0 : 0 ≤ strength) (h1 : strength ≤ 1) :
    ((applyColorChangePixels img tr tg tb strength).length = img.length)
    ∧ (∀ i, i < img.length →
        (applyColorChangePixels img tr tg tb strength).getD i ⟨0, 0, 0, 0⟩ =
          { r := blendChannel strength tr ((img.getD i ⟨0, 0, 0, 0⟩).r)
            g := blendChannel strength tg ((img.getD i ⟨0, 0, 0, 0⟩).g)
            b := blendChannel strength tb ((img.getD i ⟨0, 0, 0, 0⟩).b)
            a := (img.getD i ⟨0, 0, 0, 0⟩).a })
    ∧ (tr ≤ 255 → (∀ p ∈ img, p.r ≤ 255) →
        ∀ q ∈ applyColorChangePixels img tr tg tb strength, q.r ≤ 255)
    ∧ (applyColorChangePixels img tr tg tb 0 = img)
    ∧ (applyColorChangePixels img tr tg tb 1 = img.map fun p => ⟨tr, tg, tb, p.a⟩) := by
  refine ⟨?_, ?_, ?_, ?_, ?_⟩
  · simp [applyColorChangePixels]
  · intro i hi
    exact getD_map_lt
      (fun p => ({ r := blendChannel strength tr p.r
                   g := blendChannel strength tg p.g
                   b := blendChannel strength tb p.b
                   a := p.a } : Pixel))
      img i hi ⟨0, 0, 0, 0⟩ ⟨0, 0, 0, 0⟩
  · intro htr hin q hq
    rcases List.mem_map.mp hq with ⟨p, hp, hpq⟩
    subst hpq
    exact blendChannel_le strength tr p.r h0 h1 htr (hin p hp)
  · unfold applyColorChangePixels
    conv_rhs => rw [(List.map_id' img).symm]
    refine List.map_congr_left ?_
    intro p _
    simp [blendChannel_zero]
  · unfold applyColorChangePixels
    refine List.map_congr_left ?_
    intro p _
    simp [blendChannel_one]

/-- Concrete run of C8 at strength one half on a one-pixel image: the
strength-zero boundary extracted from the main theorem. -/
theorem C8_blendColor_spec_witness :
    applyColorChangePixels [⟨10, 20, 30, 40⟩] 1 2 3 0 = [⟨10, 20, 30, 40⟩] :=
  (C8_blendColor_spec [⟨10, 20, 30, 40⟩] 1 2 3 (1 / 2)
    (by norm_num) (by norm_num)).2.2.2.1

/-- A decoded `AudioBuffer`: sample rate, frame count per channel, and the
per-channel sample arrays. -/
structure PCMBuffer where
  sampleRate : ℕ
  length : ℕ
  channels : List (List ℚ)

/-- The trim step of `applyUploadedAudio` (exportImport.js, lines 562-636):
`startSample = floor(start * sampleRate)`,
`endSample = floor(end * sampleRate)` clamped to the buffer length; a
non-positive trimmed length throws (the InvalidRange failure); otherwise a
new buffer of `endSample - startSample` frames per channel is filled with
`trimmed[j] = original[startSample + j]` for every channel. -/
def trimAudioBuffer (pcm : PCMBuffer) (startSeconds endSeconds : ℚ) :
    Except String PCMBuffer :=
  if min ⌊endSeconds * pcm.sampleRate⌋ (pcm.length : ℤ) -
      ⌊startSeconds * pcm.sampleRate⌋ ≤ 0 then
    Except.error "InvalidRange"
  else
    Except.ok
      { sampleRate := pcm.sampleRate
        length := (min ⌊endSeconds * pcm.sampleRate⌋ (pcm.length : ℤ) -
          ⌊startSeconds * pcm.sampleRate⌋).toNat
        channels := pcm.channels.map fun ch =>
          (List.range ((min ⌊endSeconds * pcm.sampleRate⌋ (pcm.length : ℤ) -
            ⌊startSeconds * pcm.sampleRate⌋).toNat)).map
            fun j => ch.getD ((⌊startSeconds * pcm.sampleRate⌋).toNat + j) 0 }

theorem getD_range_map (g : ℕ → ℚ) (n j : ℕ) (h : j < n) (d : ℚ) :
    ((List.range n).map g).getD j d = g j := by
  rw [List.getD_eq_getElem ((List.range n).map g) d (by simpa using h)]
  simp

/-- Claim C7: trim fails with InvalidRange exactly when
`min(floor(end * rate), totalSamples) <= floor(start * rate)`; on success the
result has `endSample - startSample` frames per channel, the channel count
and sample rate are preserved, and frame `j` of channel `i` equals source
frame `startSample + j` of channel `i`; in particular trimming from 0 to the
full duration preserves the frame count. -/
theorem C7_trim_spec (pcm : PCMBuffer) (s e : ℚ) (hs : 0 ≤ s)
    (hrate : 0 < pcm.sampleRate)
    (_hch : ∀ ch ∈ pcm.channels, ch.length = pcm.length) :
    ((0 : ℤ) ≤ ⌊s * pcm.sampleRate⌋)
    ∧ (min ⌊e * pcm.sampleRate⌋ (pcm.length : ℤ) ≤ ⌊s * pcm.sampleRate⌋ →
        trimAudioBuffer pcm s e = Except.error "InvalidRange")
    ∧ (∀ out, trimAudioBuffer pcm s e = Except.ok out →
        (out.length : ℤ)
            = min ⌊e * pcm.sampleRate⌋ (pcm.length : ℤ) - ⌊s * pcm.sampleRate⌋
        ∧ out.sampleRate = pcm.sampleRate
        ∧ out.channels.length = pcm.channels.length
        ∧ (∀ ch ∈ out.channels, ch.length = out.length)
        ∧ ∀ i j, j < out.length →
            (out.channels.getD i []).getD j 0
              = (pcm.channels.getD i []).getD ((⌊s * pcm.sampleRate⌋).toNat + j) 0)
    ∧ (0 < pcm.length →
        ∃ out,
          trimAudioBuffer pcm 0 ((pcm.length : ℚ) / (pcm.sampleRate : ℚ))
              = Except.ok out
          ∧ out.length = pcm.length) := by
  have hs0 : (0 : ℤ) ≤ ⌊s * pcm.sampleRate⌋ :=
    Int.floor_nonneg.mpr (mul_nonneg hs (by positivity))
  refine ⟨hs0, ?_, ?_, ?_⟩
  · intro hle
    unfold trimAudioBuffer
    rw [if_pos (by omega)]
  · intro out hout
    unfold trimAudioBuffer at hout
    by_cases hc : min ⌊e * pcm.sampleRate⌋ (pcm.length : ℤ) -
        ⌊s * pcm.sampleRate⌋ ≤ 0
    · rw [if_pos hc] at hout; cases hout
    · rw [if_neg hc] at hout
      have hout2 := Except.ok.inj hout
      subst hout2
      refine ⟨by simp; omega, rfl, by simp, ?_, ?_⟩
      · intro ch hchmem
        rcases List.mem_map.mp hchmem with ⟨ch0, _, hch0⟩
        subst hch0
        simp
      · intro i j hj
        simp only at hj
        by_cases hi : i < pcm.channels.length
        · rw [getD_map_lt
            (fun ch => (List.range ((min ⌊e * pcm.sampleRate⌋ (pcm.length : ℤ) -
              ⌊s * pcm.sampleRate⌋).toNat)).map
              fun j => ch.getD ((⌊s * pcm.sampleRate⌋).toNat + j) 0)
            pcm.channels i hi [] []]
          exact getD_range_map _ _ j hj 0
        · have h1 : (pcm.channels.map fun ch =>
              (List.range ((min ⌊e * pcm.sampleRate⌋ (pcm.length : ℤ) -
                ⌊s * pcm.sampleRate⌋).toNat)).map
                fun j => ch.getD ((⌊s * pcm.sampleRate⌋).toNat + j) 0).getD i [] = [] := by
            apply List.getD_eq_default
            simpa using not_lt.mp hi
          have h2 : pcm.channels.getD i [] = [] :=
            List.getD_eq_default _ _ (not_lt.mp hi)
          rw [h1, h2]
          rfl
  · intro hlen
    have hrQ : (pcm.sampleRate : ℚ) ≠ 0 := by
      exact_mod_cast hrate.ne'
    have he : ((pcm.length : ℚ) / (pcm.sampleRate : ℚ)) * (pcm.sampleRate : ℚ)
        = (pcm.length : ℚ) := div_mul_cancel₀ _ hrQ
    have hfe : ⌊((pcm.length : ℚ) / (pcm.sampleRate : ℚ)) * (pcm.sampleRate : ℚ)⌋
        = (pcm.length : ℤ) := by rw [he]; exact Int.floor_natCast _
    have hfs : ⌊(0 : ℚ) * (pcm.sampleRate : ℚ)⌋ = 0 := by norm_num
    unfold trimAudioBuffer
    rw [hfs, hfe, min_self]
    rw [if_neg (by omega)]
    exact ⟨_, rfl, by simp⟩

/-- Concrete run of C7: a stereo-rate-2 buffer of four frames trimmed from 0
seconds to its full two-second duration keeps all four frames. -/
theorem C7_trim_spec_witness :
    ∃ out,
      trimAudioBuffer ⟨2, 4, [[1, 2, 3, 4]]⟩ 0 ((4 : ℚ) / (2 : ℚ)) = Except.ok out
      ∧ out.length = 4 :=
  (C7_trim_spec ⟨2, 4, [[1, 2, 3, 4]]⟩ 0 0 (by norm_num) (by norm_num)
    (by intro ch hch; simp at hch; rw [hch]; rfl)).2.2.2 (by norm_num)

/-- One element of the list returned by `getSelectedAssets`
(selection.js): key, current payload and current kind. -/
structure SelAsset where
  folderNumber : String
  fileName : String
  base64Data : String
  type : AssetType
deriving DecidableEq, Repr

/-- The per-asset loop of `applyColorChange` (exportImport.js, lines
716-789).  Non-image assets are skipped with a log and the loop continues;
a failing pixel decode rejects the per-asset promise, and because the only
try/catch sits outside the loop the whole batch aborts there: the registry
is returned as it stood, every remaining asset unprocessed.  `decode` is
the Image/canvas pixel-decode oracle, `encode` the canvas re-encode. -/
def applyColorChangeBatch (decode : SelAsset → Option (List Pixel))
    (encode : List Pixel → String) (tr tg tb : ℕ) (strength : ℚ) :
    Registry → List SelAsset → Registry
  | reg, [] => reg
  | reg, a :: rest =>
      if a.type = AssetType.jpg ∨ a.type = AssetType.png then
        match decode a with
        | some img =>
            applyColorChangeBatch decode encode tr tg tb strength
              (updateAssetInMemory reg (a.folderNumber, a.fileName)
                (encode (applyColorChangePixels img tr tg tb strength)) a.type none)
              rest
        | none => reg
      else
        applyColorChangeBatch decode encode tr tg tb strength reg rest

/-- The per-asset loop of `applyTextureAdjustments` (bulkOperations.js,
lines 44-96), run over the image assets of the selection: a failing decode
resolves the per-asset promise anyway ("resolve anyway to not block other
operations"), so the remaining assets are still processed. -/
def applyTextureAdjustmentsBatch (decode : SelAsset → Option (List Pixel))
    (transform : List Pixel → List Pixel) (encode : List Pixel → String) :
    Registry → List SelAsset → Registry
  | reg, [] => reg
  | reg, a :: rest =>
      match decode a with
      | some img =>
          applyTextureAdjustmentsBatch decode transform encode
            (updateAssetInMemory reg (a.folderNumber, a.fileName)
              (encode (transform img)) a.type none) rest
      | none => applyTextureAdjustmentsBatch decode transform encode reg rest

/-- Claim C5, evaluated at the failing input: with a selection of two png
assets whose first fails to decode, `applyColorChange` aborts the whole
batch — the registry is returned unchanged and the second asset is never
updated — while `applyTextureAdjustments` skips the bad asset and still
updates the second one. -/
theorem C5_decode_failure_aborts_applyColorChange :
    applyColorChangeBatch
      (fun a => if a.fileName = "bad.png" then none else some [⟨0, 0, 0, 255⟩])
      (fun _ => "ENC") 255 0 0 1
      [(("1", "bad.png"), loadRecord "B" AssetType.png),
       (("1", "good.png"), loadRecord "G" AssetType.png)]
      [⟨"1", "bad.png", "B", AssetType.png⟩, ⟨"1", "good.png", "G", AssetType.png⟩]
      = [(("1", "bad.png"), loadRecord "B" AssetType.png),
         (("1", "good.png"), loadRecord "G" AssetType.png)]
    ∧ applyTextureAdjustmentsBatch
      (fun a => if a.fileName = "bad.png" then none else some [⟨0, 0, 0, 255⟩])
      (fun img => img) (fun _ => "ENC")
      [(("1", "bad.png"), loadRecord "B" AssetType.png),
       (("1", "good.png"), loadRecord "G" AssetType.png)]
      [⟨"1", "bad.png", "B", AssetType.png⟩, ⟨"1", "good.png", "G", AssetType.png⟩]
      = [(("1", "bad.png"), loadRecord "B" AssetType.png),
         (("1", "good.png"),
          updateRecord (loadRecord "G" AssetType.png) "ENC" AssetType.png none)] := by
  constructor <;> rfl

/-- Keys of the raster (`jpg`/`png`) assets of a selection, in order. -/
def rasterSelectedKeys (selected : List SelAsset) : List AssetKey :=
  (selected.filter fun a => a.type = AssetType.jpg ∨ a.type = AssetType.png).map
    fun a => (a.folderNumber, a.fileName)

/-- `generateNewTexture` (part_000, lines 145-179): after validating the
dimensions, one canvas is filled with the chosen color and encoded to PNG
exactly once (`pngBase64`); the loop then writes that same payload with
kind `png` into every selected raster asset through `updateAssetInMemory`,
skipping non-raster assets. -/
def generateNewTextureOp (reg : Registry) (selected : List SelAsset)
    (width height : ℕ) (pngBase64 : String) : Registry :=
  if width = 0 ∨ height = 0 then reg
  else
    selected.foldl
      (fun r a =>
        if a.type = AssetType.jpg ∨ a.type = AssetType.png then
          updateAssetInMemory r (a.folderNumber, a.fileName) pngBase64 AssetType.png none
        else r) reg

theorem updateRecord_png_idem (r : AssetRecord) (b : String) :
    updateRecord (updateRecord r b AssetType.png none) b AssetType.png none
      = updateRecord r b AssetType.png none := rfl

theorem generateFoldl_eq_map (pngBase64 : String) (selected : List SelAsset) :
    ∀ reg : Registry,
      selected.foldl
        (fun r a =>
          if a.type = AssetType.jpg ∨ a.type = AssetType.png then
            updateAssetInMemory r (a.folderNumber, a.fileName) pngBase64 AssetType.png none
          else r) reg
      = reg.map fun p =>
          if p.1 ∈ rasterSelectedKeys selected then
            (p.1, updateRecord p.2 pngBase64 AssetType.png none)
          else p := by
  induction selected with
  | nil =>
      intro reg
      simp [rasterSelectedKeys]
  | cons a rest ih =>
      intro reg
      by_cases ha : a.type = AssetType.jpg ∨ a.type = AssetType.png
      · have hkeys : rasterSelectedKeys (a :: rest)
            = (a.folderNumber, a.fileName) :: rasterSelectedKeys rest := by
          simp [rasterSelectedKeys, List.filter_cons, ha]
        show List.foldl _ (if a.type = AssetType.jpg ∨ a.type = AssetType.png then _ else _) rest = _
        rw [if_pos ha, ih, updateAssetInMemory, List.map_map]
        refine List.map_congr_left ?_
        intro x _
        show (fun p =>
            if p.1 ∈ rasterSelectedKeys rest then
              (p.1, updateRecord p.2 pngBase64 AssetType.png none)
            else p)
          (if x.1 = (a.folderNumber, a.fileName) then
            (x.1, updateRecord x.2 pngBase64 AssetType.png none) else x) = _
        rw [hkeys]
        by_cases hx : x.1 = (a.folderNumber, a.fileName)
        · rw [if_pos hx]
          by_cases hr : x.1 ∈ rasterSelectedKeys rest
          · simp only [hr, if_pos, List.mem_cons]
            simp [hx, updateRecord_png_idem]
          · simp only [hr, if_neg, ite_false, List.mem_cons]
            simp [hx]
        · rw [if_neg hx]
          by_cases hr : x.1 ∈ rasterSelectedKeys rest
          · simp [List.mem_cons, hr]
          · simp [List.mem_cons, hr, hx]
      · have hkeys : rasterSelectedKeys (a :: rest) = rasterSelectedKeys rest := by
          simp [rasterSelectedKeys, List.filter_cons, ha]
        show List.foldl _ (if a.type = AssetType.jpg ∨ a.type = AssetType.png then _ else _) rest = _
        rw [if_neg ha, ih, hkeys]

/-- Claim C10: with valid positive dimensions, the texture-generation batch
equals a single pass over the registry in which every record whose key is a
selected raster (jpg or png) asset receives the one shared PNG payload with
its kind set to png (jpg assets silently become png), and every other
record — including selected non-raster assets — is untouched; consequently
every selected raster asset holds equal bytes, every record reached through
the raster selection carries the shared payload and the png kind, and
records outside the raster selection survive unchanged. -/
theorem C10_generateNewTexture_spec (reg : Registry) (selected : List SelAsset)
    (width height : ℕ) (pngBase64 : String) (hw : 0 < width) (hh : 0 < height) :
    (generateNewTextureOp reg selected width height pngBase64
      = reg.map fun p =>
          if p.1 ∈ rasterSelectedKeys selected then
            (p.1, updateRecord p.2 pngBase64 AssetType.png none)
          else p)
    ∧ (∀ p ∈ generateNewTextureOp reg selected width height pngBase64,
        p.1 ∈ rasterSelectedKeys selected →
          p.2.currentBase64 = pngBase64 ∧ p.2.type = AssetType.png)
    ∧ (∀ p ∈ generateNewTextureOp reg selected width height pngBase64,
        ∀ q ∈ generateNewTextureOp reg selected width height pngBase64,
          p.1 ∈ rasterSelectedKeys selected → q.1 ∈ rasterSelectedKeys selected →
            p.2.currentBase64 = q.2.currentBase64)
    ∧ (∀ p ∈ reg, p.1 ∉ rasterSelectedKeys selected →
        p ∈ generateNewTextureOp reg selected width height pngBase64) := by
  have hvalid : ¬ (width = 0 ∨ height = 0) := by omega
  have hmain : generateNewTextureOp reg selected width height pngBase64
      = reg.map fun p =>
          if p.1 ∈ rasterSelectedKeys selected then
            (p.1, updateRecord p.2 pngBase64 AssetType.png none)
          else p := by
    unfold generateNewTextureOp
    rw [if_neg hvalid]
    exact generateFoldl_eq_map pngBase64 selected reg
  have hfields : ∀ p ∈ generateNewTextureOp reg selected width height pngBase64,
      p.1 ∈ rasterSelectedKeys selected →
        p.2.currentBase64 = pngBase64 ∧ p.2.type = AssetType.png := by
    intro p hp hpk
    rw [hmain] at hp
    rcases List.mem_map.mp hp with ⟨p0, _, hp0⟩
    by_cases h0 : p0.1 ∈ rasterSelectedKeys selected
    · rw [if_pos h0] at hp0
      rw [← hp0]
      exact ⟨rfl, rfl⟩
    · rw [if_neg h0] at hp0
      subst hp0
      exact absurd hpk h0
  refine ⟨hmain, hfields, ?_, ?_⟩
  · intro p hp q hq hpk hqk
    rw [(hfields p hp hpk).1, (hfields q hq hqk).1]
  · intro p hp hpk
    rw [hmain]
    refine List.mem_map.mpr ⟨p, hp, ?_⟩
    rw [if_neg hpk]

/-- Concrete run of C10: one jpg and one mp3 selected; the jpg record takes
the shared PNG payload and the png kind, the mp3 record is untouched. -/
theorem C10_generateNewTexture_spec_witness :
    generateNewTextureOp
      [(("1", "t.jpg"), loadRecord "J" AssetType.jpg),
       (("2", "s.mp3"), loadRecord "M" AssetType.mp3)]
      [⟨"1", "t.jpg", "J", AssetType.jpg⟩, ⟨"2", "s.mp3", "M", AssetType.mp3⟩]
      16 16 "PNGDATA"
      = [(("1", "t.jpg"), loadRecord "J" AssetType.jpg),
         (("2", "s.mp3"), loadRecord "M" AssetType.mp3)].map fun p =>
          if p.1 ∈ rasterSelectedKeys
              [⟨"1", "t.jpg", "J", AssetType.jpg⟩, ⟨"2", "s.mp3", "M", AssetType.mp3⟩] then
            (p.1, updateRecord p.2 "PNGDATA" AssetType.png none)
          else p :=
  (C10_generateNewTexture_spec
    [(("1", "t.jpg"), loadRecord "J" AssetType.jpg),
     (("2", "s.mp3"), loadRecord "M" AssetType.mp3)]
    [⟨"1", "t.jpg", "J", AssetType.jpg⟩, ⟨"2", "s.mp3", "M", AssetType.mp3⟩]
    16 16 "PNGDATA" (by norm_num) (by norm_num)).1
